import Mathlib

/-!
Verification of the understat crawler (`scrape.py`): a shallow embedding of
its core functions — `tag_and_save`, `get_page`, `get_data`'s retry loop and
extraction loop, `loop_run_in_batch`, the stage drivers and `main`'s
derivation and scheduling phases — together with theorems settling the
specified properties.

External collaborators (the HTTP session, `re.search`, `json.loads`,
`random`) are modelled as explicit inputs: a fetch is given the response
body it would receive, the regex search and JSON parse are function
parameters, and randomness is an explicit stream.  Everything the source
itself computes (string stripping, path joining, the batching arithmetic,
dict building, set unions) is embedded concretely and executably.
-/

set_option autoImplicit false

universe u v

/-! ### Python string semantics: `str.strip()` -/

/-- The ASCII whitespace characters removed by Python's `str.strip()`. -/
def isPySpace (c : Char) : Bool :=
  c == ' ' || c == '\t' || c == '\n' || c == '\r' || c == '\x0b' || c == '\x0c'

/-- Python `s.strip()`: remove leading and trailing whitespace. -/
def pyStrip (s : String) : String :=
  ⟨((s.toList.dropWhile isPySpace).reverse.dropWhile isPySpace).reverse⟩

/-! ### `os.path` semantics (POSIX) -/

/-- `os.path.join` of two components (posixpath semantics): an absolute
second component discards the first; otherwise insert a separator unless
one is already present. -/
def posixJoin2 (a b : String) : String :=
  if b.startsWith "/" then b
  else if a == "" || a.endsWith "/" then a ++ b
  else a ++ "/" ++ b

/-- `os.path.join(root, *segments)`. -/
def osPathJoin (root : String) (segs : List String) : String :=
  segs.foldl posixJoin2 root

/-- `os.path.dirname` (posixpath semantics): everything up to the last
separator, with trailing separators stripped unless the result is all
separators. -/
def pyDirname (p : String) : String :=
  let head := ((p.toList.reverse.dropWhile (fun c => !(c == '/'))).reverse)
  if head.isEmpty || head.all (· == '/') then ⟨head⟩
  else ⟨(head.reverse.dropWhile (· == '/')).reverse⟩

/-- `ROOTDIR = 'data'` from the source. -/
def ROOTDIR : String := "data"

/-- `BASEURL = 'https://understat.com/'` from the source. -/
def BASEURL : String := "https://understat.com/"

/-! ### Filesystem model and `tag_and_save` -/

/-- A Python-dict update on an association list: an existing key is
overwritten in place, a fresh key is appended.  Used both for `data[key] =
val` in `get_data` and for the file store. -/
def dictInsert {α : Type u} (d : List (String × α)) (k : String) (v : α) :
    List (String × α) :=
  if d.any (fun p => p.1 == k) then
    d.map (fun p => if p.1 == k then (k, v) else p)
  else d ++ [(k, v)]

/-- The directory paths created by `os.makedirs(path)`: the path itself and
every ancestor obtained by truncating at a separator. -/
def cumPrefixPaths (path : String) : List String :=
  let parts := path.splitOn "/"
  (List.range parts.length).map (fun i => String.intercalate "/" (parts.take (i + 1)))

/-- A model of the on-disk state: the set of existing directories and the
file contents, keyed by path. -/
structure FS where
  dirs : List String
  files : List (String × String)
  deriving DecidableEq

/-- `os.makedirs(path)`: create `path` and all missing ancestors. -/
def makedirs (dirs : List String) (path : String) : List String :=
  path :: cumPrefixPaths path ++ dirs

/-- `tag_and_save(key, coroutine)` from the source, with the awaited
payload passed directly: join the root with the key segments, create the
parent directory if it is not already a directory, write the payload, and
return the `(key, data)` pair. -/
def tag_and_save (fs : FS) (key : List String) (data : String) :
    FS × (List String × String) :=
  let path := osPathJoin ROOTDIR key
  let fs1 : FS :=
    if pyDirname path ∈ fs.dirs then fs
    else { fs with dirs := makedirs fs.dirs (pyDirname path) }
  ({ fs1 with files := dictInsert fs1.files path data }, (key, data))

/-! ### Throttle-aware fetcher: `get_page` and the retry loop of `get_data` -/

/-- The `ThrottlingError` exception class of the source. -/
structure ThrottlingError where
  deriving DecidableEq

/-- `get_page(url)`, with the HTTP response body passed in: raise
`ThrottlingError` when the stripped body is the `closed.php` sentinel,
otherwise return the body unchanged. -/
def get_page (html : String) : Except ThrottlingError String :=
  if pyStrip html == "closed.php" then .error ⟨⟩ else .ok html

/-- `random.randint(1, 5) + random.random()` as a rational, from one draw
`(i, f)` of the randomness stream. -/
def cool_down (r : ℕ × ℚ) : ℚ := (r.1 : ℚ) + r.2

/-- A well-formed randomness stream: `randint(1,5)` lands in `[1,5]` and
`random()` in `[0,1)`. -/
def ValidRand (rand : ℕ → ℕ × ℚ) : Prop :=
  ∀ k, 1 ≤ (rand k).1 ∧ (rand k).1 ≤ 5 ∧ 0 ≤ (rand k).2 ∧ (rand k).2 < 1

/-- The `while True` retry loop of `get_data` (lines 41–51): attempt after
attempt on the same URL, sleeping `cool_down` on each `ThrottlingError`,
until a non-throttled body arrives.  `responses` lists the successive
bodies the server would return, `k` indexes the randomness stream; the
result pairs the accepted body with the list of sleep durations, and is
`none` only when the modelled response stream runs out while still
throttled (the real loop would simply keep retrying). -/
def fetch_with_retry (rand : ℕ → ℕ × ℚ) : List String → ℕ → Option (String × List ℚ)
  | [], _ => none
  | html :: rest, k =>
    match get_page html with
    | .error _ =>
        (fetch_with_retry rand rest (k + 1)).map
          (fun p => (p.1, cool_down (rand k) :: p.2))
    | .ok h => some (h, [])

/-! ### Extraction: the body of `get_data` after the fetch (lines 53–64) -/

/-- A parsed JSON value, the result of `json.loads`. -/
inductive JsonVal : Type where
  | null : JsonVal
  | bool (b : Bool) : JsonVal
  | num (n : Int) : JsonVal
  | str (s : String) : JsonVal
  | arr (elems : List JsonVal) : JsonVal
  | obj (fields : List (String × JsonVal)) : JsonVal

/-- Escaping of one character inside a JSON string literal. -/
def jsonEscapeChar (c : Char) : String :=
  if c == '"' then "\\\""
  else if c == '\\' then "\\\\"
  else if c == '\n' then "\\n"
  else if c == '\t' then "\\t"
  else if c == '\r' then "\\r"
  else String.singleton c

/-- Escaping of a JSON string literal body. -/
def jsonEscape (s : String) : String :=
  String.join (s.toList.map jsonEscapeChar)

mutual

/-- `json.dumps` with its default separators. -/
def jsonDumps : JsonVal → String
  | .null => "null"
  | .bool true => "true"
  | .bool false => "false"
  | .num n => toString n
  | .str s => "\"" ++ jsonEscape s ++ "\""
  | .arr xs => "[" ++ String.intercalate ", " (jsonDumpsList xs) ++ "]"
  | .obj fs => "\x7b" ++ String.intercalate ", " (jsonDumpsFields fs) ++ "\x7d"

/-- `json.dumps` applied across a JSON array's elements. -/
def jsonDumpsList : List JsonVal → List String
  | [] => []
  | x :: xs => jsonDumps x :: jsonDumpsList xs

/-- `json.dumps` applied across a JSON object's fields. -/
def jsonDumpsFields : List (String × JsonVal) → List String
  | [] => []
  | (k, v) :: fs => ("\"" ++ jsonEscape k ++ "\": " ++ jsonDumps v) :: jsonDumpsFields fs

end

/-- The script-scanning loop of `get_data`: for each `<script>` text, run
`PATTERN.search` (modelled by the collaborator `search`, returning the two
captured groups of the first match, if any) and store the parsed value
under the captured name in the Python dict `data`.  `parse` models
`json.loads` composed with the `unicode_escape` decoding. -/
def extract_step (search : String → Option (String × String))
    (parse : String → JsonVal) (data : List (String × JsonVal))
    (script : String) : List (String × JsonVal) :=
  match search script with
  | some kv => dictInsert data kv.1 (parse kv.2)
  | none => data

/-- The dict built by folding `extract_step` over all `<script>` texts of
the page, starting from the empty `data = dict()`. -/
def extract_scripts (search : String → Option (String × String))
    (parse : String → JsonVal) (scripts : List String) :
    List (String × JsonVal) :=
  scripts.foldl (extract_step search parse) []

/-- The value `get_data` returns once fetched: `json.dumps(data)` for the
dict built by the scanning loop. -/
def get_data_extract (search : String → Option (String × String))
    (parse : String → JsonVal) (scripts : List String) : String :=
  jsonDumps (.obj (extract_scripts search parse scripts))

/-! ### `loop_run_in_batch` (lines 104–110) -/

/-- Python's `ZeroDivisionError`, raised by `// 0`. -/
structure ZeroDivisionError where
  deriving DecidableEq

/-- `numbatches = (len(arg_list) + batch_size - 1) // batch_size`, for a
non-zero `batch_size` (floor division agrees with `Nat` division here). -/
def numbatches (len batch_size : ℕ) : ℕ :=
  (len + batch_size - 1) / batch_size

/-- The successive slices `arg_list[i*batch_size : min((i+1)*batch_size,
len(arg_list))]` the loop passes to `func`, in order. -/
def batch_slices {α : Type u} (arg_list : List α) (batch_size : ℕ) :
    List (List α) :=
  (List.range (numbatches arg_list.length batch_size)).map
    (fun i => (arg_list.drop (i * batch_size)).take batch_size)

/-- `loop_run_in_batch(func, arg_list, batch_size)` as the sequence of
worker invocations it performs: computing `numbatches` raises
`ZeroDivisionError` when `batch_size == 0`; otherwise `func` is awaited
once per slice, batch `i+1` strictly after batch `i`. -/
def loop_run_in_batch {α : Type u} (arg_list : List α) (batch_size : ℕ) :
    Except ZeroDivisionError (List (List α)) :=
  if batch_size == 0 then .error ⟨⟩
  else .ok (batch_slices arg_list batch_size)

/-- Ceiling division, written from the spec's words `ceil(len(items) /
batchSize)`, to compare against the source's `numbatches` arithmetic. -/
def specCeilDiv (a b : ℕ) : ℕ :=
  if a % b = 0 then a / b else a / b + 1

/-! ### Stage drivers (lines 66–102) -/

/-- `itertools.product(leagues, seasons)`. -/
def itertools_product {α : Type u} {β : Type v} (xs : List α) (ys : List β) :
    List (α × β) :=
  (xs.map (fun x => ys.map (fun y => (x, y)))).flatten

/-- `season.split('-')[0]`. -/
def season_start (season : String) : String :=
  (season.splitOn "-").headD ""

/-- The URL built for one league page. -/
def league_url (league season : String) : String :=
  osPathJoin BASEURL ["league", league, season_start season]

/-- The URL built for one team page. -/
def team_url (team_name season : String) : String :=
  osPathJoin BASEURL ["team", team_name, season_start season]

/-- The URL built for one player page. -/
def player_url (player_id : String) : String :=
  osPathJoin BASEURL ["player", player_id]

/-- The URL built for one match page. -/
def match_url (match_id : String) : String :=
  osPathJoin BASEURL ["match", match_id]

/-- `process_league_pages(leagues, seasons)`: one
`tag_and_save(('league', league, season), get_data(url))` task per element
of the league × season product, the gathered `(key, data)` pairs returned
in task order.  `get_data` is the fetch-and-extract collaborator, mapping
a URL to the serialized Extraction Result; the store effects are threaded
through `fs`. -/
def league_step (get_data : String → String)
    (acc : FS × List (List String × String)) (ls : String × String) :
    FS × List (List String × String) :=
  let r := tag_and_save acc.1 ["league", ls.1, ls.2] (get_data (league_url ls.1 ls.2))
  (r.1, acc.2 ++ [r.2])

/-- The driver as a whole: the `league_step` tasks over the product, the
gathered pairs accumulated in task order. -/
def process_league_pages (get_data : String → String) (fs : FS)
    (leagues seasons : List String) : FS × List (List String × String) :=
  (itertools_product leagues seasons).foldl (league_step get_data) (fs, [])

/-- `process_team_pages(team_seasons)`: persist every team page; the
gathered results are discarded and the driver returns `None`. -/
def process_team_pages (get_data : String → String) (fs : FS)
    (team_seasons : List (String × String)) : FS × Unit :=
  (team_seasons.foldl
    (fun acc ts => (tag_and_save acc ["team", ts.1, ts.2] (get_data (team_url ts.1 ts.2))).1)
    fs, ())

/-- `process_player_pages(player_ids)`: persist every player page; the
gathered results are discarded and the driver returns `None`. -/
def process_player_pages (get_data : String → String) (fs : FS)
    (player_ids : List String) : FS × Unit :=
  (player_ids.foldl
    (fun acc pid => (tag_and_save acc ["player", pid] (get_data (player_url pid))).1)
    fs, ())

/-- `process_match_pages(match_ids)`: persist every match page; the
gathered results are discarded and the driver returns `None`. -/
def process_match_pages (get_data : String → String) (fs : FS)
    (match_ids : List String) : FS × Unit :=
  (match_ids.foldl
    (fun acc mid => (tag_and_save acc ["match", mid] (get_data (match_url mid))).1)
    fs, ())

/-- The dict comprehension of `main` (lines 115–117): `data = (key:
json.loads(val) for key, val in group_leagues)`, with `json.loads`
abstracted as the collaborator `loads`. -/
def main_league_data (loads : String → JsonVal)
    (group_leagues : List (List String × String)) :
    List (List String × JsonVal) :=
  group_leagues.map (fun kv => (kv.1, loads kv.2))

/-! ### Derivation phase of `main` (lines 119–135) -/

/-- A team descriptor as accessed by `main`: `team['title']`. -/
structure TeamD where
  title : String
  deriving DecidableEq

/-- A player descriptor as accessed by `main`: `player['id']`. -/
structure PlayerD where
  id : String
  deriving DecidableEq

/-- A match-date descriptor as accessed by `main`: `match['id']`. -/
structure MatchD where
  id : String
  deriving DecidableEq

/-- A League Snapshot: the three collections `main` reads out of one
league page's parsed Extraction Result. -/
structure Snapshot where
  teamsData : List (String × TeamD)
  playersData : List PlayerD
  datesData : List MatchD
  deriving DecidableEq

/-- `team_seasons`: for every `((_, _, season), val)` item, union in the
set of `(team['title'], season)` over `val['teamsData']`'s values. -/
def derive_team_seasons (data : List ((String × String × String) × Snapshot)) :
    Finset (String × String) :=
  data.foldl
    (fun acc kv => acc ∪ (kv.2.teamsData.map (fun p => (p.2.title, kv.1.2.2))).toFinset)
    ∅

/-- `player_ids`: the union over all snapshots of `player['id']` over
`val['playersData']`. -/
def derive_player_ids (data : List ((String × String × String) × Snapshot)) :
    Finset String :=
  data.foldl
    (fun acc kv => acc ∪ (kv.2.playersData.map (fun p => p.id)).toFinset)
    ∅

/-- `match_ids`: the union over all snapshots of `match['id']` over
`val['datesData']`. -/
def derive_match_ids (data : List ((String × String × String) × Snapshot)) :
    Finset String :=
  data.foldl
    (fun acc kv => acc ∪ (kv.2.datesData.map (fun p => p.id)).toFinset)
    ∅

/-! ### Scheduling phases 3–4 of `main` (lines 137–144) -/

/-- The batch schedule of `main` after derivation: the team and player
stages are gathered concurrently, each run through `loop_run_in_batch`
with `batch_size`; only after both complete does the match stage run,
through `loop_run_in_batch` with `batch_size*2`.  The outer pair
separates the gathered phase-3 pair from the subsequent phase 4. -/
def main_schedule (team_seasons : List (String × String))
    (player_ids match_ids : List String) (batch_size : ℕ) :
    (Except ZeroDivisionError (List (List (String × String))) ×
      Except ZeroDivisionError (List (List String))) ×
      Except ZeroDivisionError (List (List String)) :=
  ((loop_run_in_batch team_seasons batch_size,
    loop_run_in_batch player_ids batch_size),
   loop_run_in_batch match_ids (batch_size * 2))

/-! ### Lemmas about the batching arithmetic -/

theorem numbatches_zero (bs : ℕ) (hb : 1 ≤ bs) : numbatches 0 bs = 0 := by
  unfold numbatches
  exact Nat.div_eq_of_lt (by omega)

theorem numbatches_succ (n bs : ℕ) (hb : 1 ≤ bs) (hn : 1 ≤ n) :
    numbatches n bs = numbatches (n - bs) bs + 1 := by
  unfold numbatches
  have h1 : n + bs - 1 = (n - 1) + bs := by omega
  rw [h1, Nat.add_div_right _ hb]
  congr 1
  rcases le_or_lt bs n with h | h
  · have h2 : n - bs + bs - 1 = n - 1 := by omega
    rw [h2]
  · have h2 : n - bs = 0 := by omega
    rw [h2, Nat.div_eq_of_lt (by omega), Nat.div_eq_of_lt (by omega)]

theorem numbatches_eq_ceil (n bs : ℕ) (hb : 1 ≤ bs) :
    numbatches n bs = specCeilDiv n bs := by
  have hdm := Nat.div_add_mod n bs
  have hr : n % bs < bs := Nat.mod_lt _ (by omega)
  rcases Nat.eq_zero_or_pos (n % bs) with h | h
  · rw [specCeilDiv, if_pos h]
    have h1 : n + bs - 1 = bs * (n / bs) + (bs - 1) := by omega
    rw [numbatches, h1, Nat.mul_add_div (by omega)]
    have h2 : (bs - 1) / bs = 0 := Nat.div_eq_of_lt (by omega)
    omega
  · rw [specCeilDiv, if_neg (by omega)]
    have h1 : n + bs - 1 = bs * (n / bs + 1) + (n % bs - 1) := by
      rw [Nat.mul_add, Nat.mul_one]
      omega
    rw [numbatches, h1, Nat.mul_add_div (by omega)]
    have h2 : (n % bs - 1) / bs = 0 := Nat.div_eq_of_lt (by omega)
    omega

theorem batch_slices_nil {α : Type u} (bs : ℕ) (hb : 1 ≤ bs) :
    batch_slices ([] : List α) bs = [] := by
  unfold batch_slices
  rw [List.length_nil, numbatches_zero bs hb, List.range_zero, List.map_nil]

theorem batch_slices_cons {α : Type u} (l : List α) (bs : ℕ) (hb : 1 ≤ bs)
    (hl : l ≠ []) :
    batch_slices l bs = l.take bs :: batch_slices (l.drop bs) bs := by
  unfold batch_slices
  have hn : 1 ≤ l.length := List.length_pos.mpr hl
  rw [List.length_drop, numbatches_succ l.length bs hb hn,
    List.range_succ_eq_map, List.map_cons]
  simp only [Nat.zero_mul, List.drop_zero]
  congr 1
  rw [List.map_map]
  refine List.map_congr_left ?_
  intro i _
  simp only [Function.comp_apply]
  rw [List.drop_drop]
  congr 2
  rw [Nat.succ_mul]
  ring

theorem batch_slices_flatten_aux {α : Type u} (bs : ℕ) (hb : 1 ≤ bs) :
    ∀ (n : ℕ) (l : List α), l.length ≤ n → (batch_slices l bs).flatten = l := by
  intro n
  induction n with
  | zero =>
    intro l hl
    have hnil : l = [] := by cases l <;> simp_all
    rw [hnil, batch_slices_nil bs hb, List.flatten_nil]
  | succ m ih =>
    intro l hl
    cases l with
    | nil => rw [batch_slices_nil bs hb, List.flatten_nil]
    | cons a t =>
      have hlen : ((a :: t).drop bs).length ≤ m := by
        rw [List.length_drop]
        simp only [List.length_cons] at hl ⊢
        omega
      rw [batch_slices_cons _ bs hb (by simp), List.flatten_cons, ih _ hlen]
      exact List.take_append_drop bs (a :: t)

theorem batch_slices_flatten {α : Type u} (bs : ℕ) (hb : 1 ≤ bs) (l : List α) :
    (batch_slices l bs).flatten = l :=
  batch_slices_flatten_aux bs hb l.length l le_rfl

theorem batch_slices_le {α : Type u} (l : List α) (bs : ℕ) :
    ∀ b ∈ batch_slices l bs, b.length ≤ bs := by
  intro b hb
  simp only [batch_slices, List.mem_map, List.mem_range] at hb
  obtain ⟨i, _, rfl⟩ := hb
  exact List.length_take_le _ _

theorem batch_slices_count {α : Type u} (l : List α) (bs : ℕ) :
    (batch_slices l bs).length = numbatches l.length bs := by
  rw [batch_slices, List.length_map, List.length_range]

/-! ### Lemmas about Python-dict updates -/

theorem lookup_map_overwrite {α : Type u} (k a : String) (v : α) (h : a ≠ k) :
    ∀ d : List (String × α),
      List.lookup a (d.map (fun p => if p.1 == k then (k, v) else p)) =
        List.lookup a d := by
  intro d
  induction d with
  | nil => rfl
  | cons p t ih =>
    rw [List.map_cons]
    by_cases hp : p.1 == k
    · have hpk : p.1 = k := by simpa using hp
      have hak : (a == k) = false := beq_false_of_ne h
      rw [if_pos hp, List.lookup_cons, List.lookup_cons, hpk, hak]
      exact ih
    · rw [if_neg hp, List.lookup_cons, List.lookup_cons]
      cases hpa : a == p.1
      · exact ih
      · rfl

theorem lookup_append_single {α : Type u} (k a : String) (v : α) (h : a ≠ k) :
    ∀ d : List (String × α),
      List.lookup a (d ++ [(k, v)]) = List.lookup a d := by
  intro d
  induction d with
  | nil =>
    rw [List.nil_append, List.lookup_cons, beq_false_of_ne h]
  | cons p t ih =>
    rw [List.cons_append, List.lookup_cons, List.lookup_cons]
    cases hpa : a == p.1
    · exact ih
    · rfl

theorem lookup_dictInsert {α : Type u} (d : List (String × α)) (k : String) (v : α) :
    List.lookup k (dictInsert d k v) = some v := by
  unfold dictInsert
  by_cases h : d.any (fun p => p.1 == k)
  · rw [if_pos h]
    induction d with
    | nil => simp at h
    | cons p t ih =>
      rw [List.map_cons]
      by_cases hp : p.1 == k
      · rw [if_pos hp, List.lookup_cons, beq_self_eq_true]
      · have h1 : p.1 ≠ k := by simpa using hp
        have hkp : (k == p.1) = false := beq_false_of_ne (Ne.symm h1)
        rw [if_neg hp, List.lookup_cons, hkp]
        refine ih ?_
        simp only [List.any_cons, Bool.or_eq_true] at h
        rcases h with h | h
        · exact absurd h hp
        · exact h
  · rw [if_neg h]
    induction d with
    | nil =>
      rw [List.nil_append, List.lookup_cons, beq_self_eq_true]
    | cons p t ih =>
      simp only [List.any_cons, Bool.or_eq_true, not_or] at h
      have h1 : p.1 ≠ k := by simpa using h.1
      have hkp : (k == p.1) = false := beq_false_of_ne (Ne.symm h1)
      rw [List.cons_append, List.lookup_cons, hkp]
      exact ih (by simpa using h.2)

theorem lookup_dictInsert_ne {α : Type u} (d : List (String × α)) (k a : String)
    (v : α) (h : a ≠ k) :
    List.lookup a (dictInsert d k v) = List.lookup a d := by
  unfold dictInsert
  by_cases hany : d.any (fun p => p.1 == k)
  · rw [if_pos hany]
    exact lookup_map_overwrite k a v h d
  · rw [if_neg hany]
    exact lookup_append_single k a v h d

theorem lookup_none_iff {α : Type u} (a : String) :
    ∀ d : List (String × α),
      List.lookup a d = none ↔ a ∉ d.map Prod.fst := by
  intro d
  induction d with
  | nil => simp
  | cons p t ih =>
    rw [List.lookup_cons, List.map_cons]
    cases hpa : a == p.1
    · have h1 : a ≠ p.1 := by simpa using hpa
      simp [ih, h1]
    · have h1 : a = p.1 := by simpa using hpa
      simp [h1]

/-! ### Lemmas about the extraction fold -/

theorem extract_scripts_eq_matches (search : String → Option (String × String))
    (parse : String → JsonVal) :
    ∀ (scripts : List String) (d : List (String × JsonVal)),
      scripts.foldl (extract_step search parse) d =
        (scripts.filterMap search).foldl
          (fun d kv => dictInsert d kv.1 (parse kv.2)) d := by
  intro scripts
  induction scripts with
  | nil => intro d; rfl
  | cons s rest ih =>
    intro d
    rw [List.foldl_cons, List.filterMap_cons]
    cases hs : search s with
    | none => rw [ih, extract_step, hs]
    | some kv => rw [List.foldl_cons, ih, extract_step, hs]

theorem lookup_matches_fold (parse : String → JsonVal) (name : String) :
    ∀ (ps : List (String × String)) (d : List (String × JsonVal)),
      List.lookup name (ps.foldl (fun d kv => dictInsert d kv.1 (parse kv.2)) d) =
        match (ps.filter (fun p => p.1 == name)).getLast? with
        | some p => some (parse p.2)
        | none => List.lookup name d := by
  intro ps
  induction ps using List.reverseRecOn with
  | nil => intro d; rfl
  | append_singleton ps p ih =>
    intro d
    rw [List.foldl_append, List.foldl_cons, List.foldl_nil, List.filter_append]
    by_cases hp : p.1 == name
    · have hp1 : p.1 = name := by simpa using hp
      rw [List.filter_cons, if_pos hp, List.filter_nil, List.getLast?_concat, hp1,
        lookup_dictInsert]
    · have hp1 : name ≠ p.1 := fun he => hp (by simp [he.symm])
      rw [List.filter_cons, if_neg hp, List.filter_nil, List.append_nil,
        lookup_dictInsert_ne _ _ _ _ hp1, ih]

theorem keys_dictInsert {α : Type u} (d : List (String × α)) (k a : String) (v : α) :
    a ∈ (dictInsert d k v).map Prod.fst ↔ a ∈ d.map Prod.fst ∨ a = k := by
  constructor
  · intro hmem
    by_cases hak : a = k
    · exact Or.inr hak
    · refine Or.inl ?_
      by_contra hnot
      have hl : List.lookup a (dictInsert d k v) = none := by
        rw [lookup_dictInsert_ne _ _ _ _ hak]
        exact (lookup_none_iff a d).mpr hnot
      exact absurd hmem ((lookup_none_iff a (dictInsert d k v)).mp hl)
  · intro hmem
    rcases hmem with hmem | rfl
    · by_cases hak : a = k
      · subst hak
        have : List.lookup a (dictInsert d a v) = some v := lookup_dictInsert d a v
        by_contra hnot
        rw [(lookup_none_iff a _).mpr hnot] at this
        cases this
      · by_contra hnot
        have hl := (lookup_none_iff a _).mpr hnot
        rw [lookup_dictInsert_ne _ _ _ _ hak] at hl
        rw [lookup_none_iff a d] at hl
        exact hl hmem
    · have : List.lookup a (dictInsert d a v) = some v := lookup_dictInsert d a v
      by_contra hnot
      rw [(lookup_none_iff a _).mpr hnot] at this
      cases this

theorem keys_matches_fold (parse : String → JsonVal) (name : String) :
    ∀ (ps : List (String × String)) (d : List (String × JsonVal)),
      name ∈ ((ps.foldl (fun d kv => dictInsert d kv.1 (parse kv.2)) d).map Prod.fst) ↔
        name ∈ d.map Prod.fst ∨ name ∈ ps.map Prod.fst := by
  intro ps
  induction ps with
  | nil => intro d; simp
  | cons p rest ih =>
    intro d
    rw [List.foldl_cons, ih, keys_dictInsert, List.map_cons, List.mem_cons]
    tauto

/-! ### Lemma about the retry loop -/

theorem fetch_with_retry_spec (rand : ℕ → ℕ × ℚ) (body : String)
    (hbody : pyStrip body ≠ "closed.php") :
    ∀ (n k : ℕ),
      fetch_with_retry rand (List.replicate n "closed.php" ++ [body]) k =
        some (body, (List.range n).map (fun i => cool_down (rand (k + i)))) := by
  intro n
  induction n with
  | zero =>
    intro k
    have hok : get_page body = .ok body := by
      rw [get_page, if_neg (by simpa using hbody)]
    simp only [List.replicate_zero, List.nil_append, List.range_zero, List.map_nil]
    rw [fetch_with_retry, hok]
  | succ m ih =>
    intro k
    rw [List.replicate_succ, List.cons_append]
    show Option.map (fun p => (p.1, cool_down (rand k) :: p.2))
        (fetch_with_retry rand (List.replicate m "closed.php" ++ [body]) (k + 1)) =
      some (body, (List.range (m + 1)).map (fun i => cool_down (rand (k + i))))
    rw [ih (k + 1), Option.map_some', List.range_succ_eq_map, List.map_cons,
      List.map_map]
    refine congrArg some (Prod.ext rfl ?_)
    simp only [Nat.add_zero]
    refine congrArg (cool_down (rand k) :: ·) ?_
    refine List.map_congr_left ?_
    intro i _
    simp only [Function.comp_apply]
    congr 2
    omega

/-! ### Lemma about folded Finset unions -/

theorem mem_foldl_union {β : Type u} {γ : Type v} [DecidableEq γ] (f : β → Finset γ) :
    ∀ (data : List β) (s : Finset γ) (x : γ),
      x ∈ data.foldl (fun acc b => acc ∪ f b) s ↔ x ∈ s ∨ ∃ b ∈ data, x ∈ f b := by
  intro data
  induction data with
  | nil => intro s x; simp
  | cons b t ih =>
    intro s x
    rw [List.foldl_cons, ih, Finset.mem_union]
    simp only [List.mem_cons]
    constructor
    · rintro ((h | h) | ⟨c, hc, hx⟩)
      · exact Or.inl h
      · exact Or.inr ⟨b, Or.inl rfl, h⟩
      · exact Or.inr ⟨c, Or.inr hc, hx⟩
    · rintro (h | ⟨c, (rfl | hc), hx⟩)
      · exact Or.inl (Or.inl h)
      · exact Or.inl (Or.inr hx)
      · exact Or.inr ⟨c, hc, hx⟩

/-! ### Lemma about the league driver fold -/

theorem league_fold_snd (g : String → String) :
    ∀ (items : List (String × String)) (fs : FS) (acc : List (List String × String)),
      (items.foldl (league_step g) (fs, acc)).2 =
        acc ++ items.map (fun ls => (["league", ls.1, ls.2], g (league_url ls.1 ls.2))) := by
  intro items
  induction items with
  | nil => intro fs acc; simp
  | cons ls rest ih =>
    intro fs acc
    rw [List.foldl_cons, List.map_cons]
    show (rest.foldl (league_step g) (league_step g (fs, acc) ls)).2 = _
    rw [league_step, ih]
    simp [tag_and_save]

/-! ### Lemmas about `tag_and_save` -/

theorem tag_and_save_lookup (fs : FS) (key : List String) (data : String) :
    List.lookup (osPathJoin ROOTDIR key) (tag_and_save fs key data).1.files =
      some data := by
  show List.lookup (osPathJoin ROOTDIR key)
      (dictInsert _ (osPathJoin ROOTDIR key) data) = some data
  exact lookup_dictInsert _ _ _

theorem tag_and_save_dirs (fs : FS) (key : List String) (data : String) :
    pyDirname (osPathJoin ROOTDIR key) ∈ (tag_and_save fs key data).1.dirs := by
  show pyDirname (osPathJoin ROOTDIR key) ∈
    (if pyDirname (osPathJoin ROOTDIR key) ∈ fs.dirs then fs
      else { fs with dirs := makedirs fs.dirs (pyDirname (osPathJoin ROOTDIR key)) }).dirs
  by_cases h : pyDirname (osPathJoin ROOTDIR key) ∈ fs.dirs
  · rw [if_pos h]
    exact h
  · rw [if_neg h]
    exact List.mem_cons_self _ _

/-! ## Claim theorems -/

/-- C1: for every `arg_list` and every `batch_size ≥ 1`, `loop_run_in_batch`
invokes its worker exactly `ceil(len(arg_list)/batch_size)` times, once per
consecutive slice of `arg_list` (the returned list records the worker's
arguments in invocation order), each slice of length at most `batch_size`,
the slices in order concatenating back to `arg_list`; an empty `arg_list`
yields zero worker invocations. -/
theorem loop_run_in_batch_correct {α : Type u} (arg_list : List α)
    (batch_size : ℕ) (hb : 1 ≤ batch_size) :
    ∃ slices,
      loop_run_in_batch arg_list batch_size = .ok slices ∧
      slices.length = specCeilDiv arg_list.length batch_size ∧
      (∀ b ∈ slices, b.length ≤ batch_size) ∧
      slices.flatten = arg_list ∧
      (arg_list = [] → slices = []) := by
  have h0 : batch_size ≠ 0 := by omega
  refine ⟨batch_slices arg_list batch_size, ?_, ?_, ?_, ?_, ?_⟩
  · simp [loop_run_in_batch, h0]
  · rw [batch_slices_count, numbatches_eq_ceil _ _ hb]
  · exact batch_slices_le arg_list batch_size
  · exact batch_slices_flatten batch_size hb arg_list
  · intro he
    rw [he]
    exact batch_slices_nil batch_size hb

/-- Witness for `loop_run_in_batch_correct` at `arg_list = [0, 1, 2]`,
`batch_size = 2`. -/
theorem loop_run_in_batch_correct_witness :
    1 ≤ 2 ∧
      ∃ slices,
        loop_run_in_batch ([0, 1, 2] : List ℕ) 2 = .ok slices ∧
        slices.length = specCeilDiv ([0, 1, 2] : List ℕ).length 2 ∧
        (∀ b ∈ slices, b.length ≤ 2) ∧
        slices.flatten = [0, 1, 2] ∧
        (([0, 1, 2] : List ℕ) = [] → slices = []) :=
  ⟨by decide, loop_run_in_batch_correct [0, 1, 2] 2 (by decide)⟩

/-- C6: calling the batched runner with `batch_size = 0` fails for every
`arg_list`: computing `numbatches` divides by zero, so the call raises
`ZeroDivisionError` before any batch runs and cannot loop forever. -/
theorem loop_run_in_batch_zero {α : Type u} (arg_list : List α) :
    loop_run_in_batch arg_list 0 = .error ⟨⟩ := rfl

/-- C4: the orchestrator runs the team and player stages through the
batched runner with batch size `B`, gathered concurrently with each other
(the inner pair of `main_schedule`), and only afterwards the match stage
with batch size exactly `2·B` (the source writes `batch_size*2`); the
three stages comprise `ceil(N/B)`, `ceil(M/B)` and `ceil(K/(2B))` batches
respectively. -/
theorem main_schedule_correct (team_seasons : List (String × String))
    (player_ids match_ids : List String) (B : ℕ) (hB : 1 ≤ B) :
    ∃ tb pb mb,
      main_schedule team_seasons player_ids match_ids B =
        ((.ok tb, .ok pb), .ok mb) ∧
      tb.length = specCeilDiv team_seasons.length B ∧
      pb.length = specCeilDiv player_ids.length B ∧
      mb.length = specCeilDiv match_ids.length (2 * B) := by
  have h0 : B ≠ 0 := by omega
  have h2 : B * 2 ≠ 0 := by omega
  refine ⟨batch_slices team_seasons B, batch_slices player_ids B,
    batch_slices match_ids (B * 2), ?_, ?_, ?_, ?_⟩
  · simp [main_schedule, loop_run_in_batch, h0, h2]
  · rw [batch_slices_count, numbatches_eq_ceil _ _ hB]
  · rw [batch_slices_count, numbatches_eq_ceil _ _ hB]
  · rw [Nat.mul_comm 2 B, batch_slices_count, numbatches_eq_ceil _ _ (by omega)]

/-- Witness for `main_schedule_correct`: one team, one player, one match,
`B = 1`. -/
theorem main_schedule_correct_witness :
    1 ≤ 1 ∧
      ∃ tb pb mb,
        main_schedule [("Arsenal", "2016-2017")] ["938"] ["12345"] 1 =
          ((.ok tb, .ok pb), .ok mb) ∧
        tb.length = specCeilDiv ([("Arsenal", "2016-2017")] : List (String × String)).length 1 ∧
        pb.length = specCeilDiv (["938"] : List String).length 1 ∧
        mb.length = specCeilDiv (["12345"] : List String).length (2 * 1) :=
  ⟨by decide, main_schedule_correct [("Arsenal", "2016-2017")] ["938"] ["12345"] 1 (by decide)⟩

/-- C2: the retry loop of `get_data`, given `n` throttling sentinels
followed by a real body for the same URL, never fails: it consumes all
`n + 1` responses (one fetch attempt each), sleeps exactly `n` times —
each duration `randint(1,5) + random()`, strictly positive for a
well-formed randomness stream — and proceeds with the real body.  `n` is
universally quantified, so there is no retry limit; with `n = 2` this is
the sentinel–sentinel–content scenario: 3 attempts, 2 sleeps. -/
theorem get_data_retry (rand : ℕ → ℕ × ℚ) (body : String) (n : ℕ)
    (hr : ValidRand rand) (hbody : pyStrip body ≠ "closed.php") :
    fetch_with_retry rand (List.replicate n "closed.php" ++ [body]) 0 =
      some (body, (List.range n).map (fun i => cool_down (rand i))) ∧
    ((List.range n).map (fun i => cool_down (rand i))).length = n ∧
    ∀ d ∈ (List.range n).map (fun i => cool_down (rand i)), 0 < d := by
  refine ⟨?_, by rw [List.length_map, List.length_range], ?_⟩
  · have h := fetch_with_retry_spec rand body hbody n 0
    simpa using h
  · intro d hd
    simp only [List.mem_map, List.mem_range] at hd
    obtain ⟨i, _, rfl⟩ := hd
    have h := hr i
    have h1 : (1 : ℚ) ≤ ((rand i).1 : ℚ) := by exact_mod_cast h.1
    have h2 : (0 : ℚ) ≤ (rand i).2 := h.2.2.1
    unfold cool_down
    linarith

/-- Witness for `get_data_retry`: responses sentinel, sentinel, real
content, with the concrete randomness stream constantly `(3, 1/2)`. -/
theorem get_data_retry_witness :
    ValidRand (fun _ => (3, 1/2)) ∧ pyStrip "<html>" ≠ "closed.php" ∧
      (fetch_with_retry (fun _ => (3, 1/2))
          (List.replicate 2 "closed.php" ++ ["<html>"]) 0 =
        some ("<html>",
          (List.range 2).map (fun i => cool_down ((fun _ => (3, 1/2)) i))) ∧
      ((List.range 2).map (fun i => cool_down ((fun _ => (3, 1/2)) i))).length = 2 ∧
      ∀ d ∈ (List.range 2).map (fun i => cool_down ((fun _ => (3, 1/2)) i)), 0 < d) := by
  have hv : ValidRand (fun _ => (3, 1/2)) := by
    intro k
    exact ⟨by norm_num, by norm_num, by norm_num, by norm_num⟩
  have hb : pyStrip "<html>" ≠ "closed.php" := by decide
  exact ⟨hv, hb, get_data_retry (fun _ => (3, 1/2)) "<html>" 2 hv hb⟩

/-- C7 as stated is false: throttling is signalled not only on a body
exactly equal to the sentinel — a body that merely strips to the sentinel
(here, with a trailing newline) also raises `ThrottlingError`. -/
theorem get_page_exact_counterexample :
    get_page "closed.php\n" = .error ⟨⟩ ∧ "closed.php\n" ≠ "closed.php" :=
  ⟨rfl, by decide⟩

/-- C7 (amended): a single fetch attempt signals throttling if and only if
the response body, after stripping leading and trailing whitespace, equals
the sentinel string; any body not stripping to the sentinel is returned
unchanged as Raw Page Content. -/
theorem get_page_throttle_iff (html : String) :
    (get_page html = .error ⟨⟩ ↔ pyStrip html = "closed.php") ∧
      (pyStrip html ≠ "closed.php" → get_page html = .ok html) := by
  unfold get_page
  by_cases h : pyStrip html = "closed.php"
  · rw [if_pos (by simpa using h)]
    exact ⟨⟨fun _ => h, fun _ => rfl⟩, fun hc => absurd h hc⟩
  · rw [if_neg (by simpa using h)]
    refine ⟨⟨fun hc => ?_, fun hc => absurd hc h⟩, fun _ => rfl⟩
    simp at hc

/-- Witness for `get_page_throttle_iff` at a non-throttled body. -/
theorem get_page_throttle_iff_witness : get_page "hello" = .ok "hello" :=
  (get_page_throttle_iff "hello").2 (by decide)

/-- C3: the derivation phase computes exactly the unions the claim
describes — the team set is the union over all snapshots of
`(team['title'], season)` with the season taken from the snapshot's
Identity Key, the player set the union of `player['id']`, and the match
set the union of `match['id']` — as deduplicated sets; and on the single
snapshot of the claim (teamsData "1" ↦ title "A", playersData one "p1",
datesData one "m1") under league "EPL", season "2016-2017", they are
exactly the singletons of ("A", "2016-2017"), "p1" and "m1". -/
theorem derivation_phase_sets (data : List ((String × String × String) × Snapshot)) :
    (∀ x : String × String, x ∈ derive_team_seasons data ↔
      ∃ kv ∈ data, ∃ p ∈ kv.2.teamsData, x = ((p.2 : TeamD).title, kv.1.2.2)) ∧
    (∀ i : String, i ∈ derive_player_ids data ↔
      ∃ kv ∈ data, ∃ p ∈ kv.2.playersData, i = PlayerD.id p) ∧
    (∀ i : String, i ∈ derive_match_ids data ↔
      ∃ kv ∈ data, ∃ p ∈ kv.2.datesData, i = MatchD.id p) ∧
    derive_team_seasons
        [(("league", "EPL", "2016-2017"), ⟨[("1", ⟨"A"⟩)], [⟨"p1"⟩], [⟨"m1"⟩]⟩)] =
      {("A", "2016-2017")} ∧
    derive_player_ids
        [(("league", "EPL", "2016-2017"), ⟨[("1", ⟨"A"⟩)], [⟨"p1"⟩], [⟨"m1"⟩]⟩)] =
      {"p1"} ∧
    derive_match_ids
        [(("league", "EPL", "2016-2017"), ⟨[("1", ⟨"A"⟩)], [⟨"p1"⟩], [⟨"m1"⟩]⟩)] =
      {"m1"} := by
  refine ⟨?_, ?_, ?_, by decide, by decide, by decide⟩
  · intro x
    rw [derive_team_seasons, mem_foldl_union]
    simp only [Finset.not_mem_empty, false_or, List.mem_toFinset, List.mem_map]
    constructor
    · rintro ⟨kv, hkv, p, hp, rfl⟩
      exact ⟨kv, hkv, p, hp, rfl⟩
    · rintro ⟨kv, hkv, p, hp, rfl⟩
      exact ⟨kv, hkv, p, hp, rfl⟩
  · intro i
    rw [derive_player_ids, mem_foldl_union]
    simp only [Finset.not_mem_empty, false_or, List.mem_toFinset, List.mem_map]
    constructor
    · rintro ⟨kv, hkv, p, hp, rfl⟩
      exact ⟨kv, hkv, p, hp, rfl⟩
    · rintro ⟨kv, hkv, p, hp, rfl⟩
      exact ⟨kv, hkv, p, hp, rfl⟩
  · intro i
    rw [derive_match_ids, mem_foldl_union]
    simp only [Finset.not_mem_empty, false_or, List.mem_toFinset, List.mem_map]
    constructor
    · rintro ⟨kv, hkv, p, hp, rfl⟩
      exact ⟨kv, hkv, p, hp, rfl⟩
    · rintro ⟨kv, hkv, p, hp, rfl⟩
      exact ⟨kv, hkv, p, hp, rfl⟩

/-- C5: the league-stage driver returns, for every league × season pair in
the product and in task order, the Identity Key `('league', league,
season)` paired with the serialized Extraction Result it persisted — which
the orchestrator then deserializes, pairing each key with the parsed
result — while the team, player and match stage drivers discard their
gathered results and return `None`. -/
theorem stage_driver_results (g : String → String) (loads : String → JsonVal)
    (fs fs2 fs3 fs4 : FS) (leagues seasons : List String)
    (team_seasons : List (String × String)) (player_ids match_ids : List String) :
    (process_league_pages g fs leagues seasons).2 =
      (itertools_product leagues seasons).map
        (fun ls => (["league", ls.1, ls.2], g (league_url ls.1 ls.2))) ∧
    main_league_data loads (process_league_pages g fs leagues seasons).2 =
      (itertools_product leagues seasons).map
        (fun ls => (["league", ls.1, ls.2], loads (g (league_url ls.1 ls.2)))) ∧
    (process_team_pages g fs2 team_seasons).2 = () ∧
    (process_player_pages g fs3 player_ids).2 = () ∧
    (process_match_pages g fs4 match_ids).2 = () := by
  have h1 : (process_league_pages g fs leagues seasons).2 =
      (itertools_product leagues seasons).map
        (fun ls => (["league", ls.1, ls.2], g (league_url ls.1 ls.2))) := by
    rw [process_league_pages, league_fold_snd, List.nil_append]
  refine ⟨h1, ?_, rfl, rfl, rfl⟩
  rw [main_league_data, h1, List.map_map]
  rfl

/-- C8: when no script of the page matches the embedded-data pattern,
extraction does not fail: `get_data` returns the serialization of the
empty mapping, and `tag_and_save` persists that empty result at the key's
path like any other payload. -/
theorem get_data_no_match (search : String → Option (String × String))
    (parse : String → JsonVal) (scripts : List String) (fs : FS)
    (key : List String) (h : ∀ s ∈ scripts, search s = none) :
    get_data_extract search parse scripts = "\x7b\x7d" ∧
      List.lookup (osPathJoin ROOTDIR key)
        (tag_and_save fs key (get_data_extract search parse scripts)).1.files =
        some "\x7b\x7d" := by
  have hres : get_data_extract search parse scripts = "\x7b\x7d" := by
    rw [get_data_extract, extract_scripts, extract_scripts_eq_matches,
      List.filterMap_eq_nil_iff.mpr h, List.foldl_nil]
    rfl
  rw [hres]
  exact ⟨rfl, tag_and_save_lookup fs key "\x7b\x7d"⟩

/-- Witness for `get_data_no_match`: one script with no embedded-data
match. -/
theorem get_data_no_match_witness :
    (∀ s ∈ (["<p>hello</p>"] : List String), (fun (_ : String) => (none : Option (String × String))) s = none) ∧
      (get_data_extract (fun _ => none) (fun _ => JsonVal.null) ["<p>hello</p>"] = "\x7b\x7d" ∧
      List.lookup (osPathJoin ROOTDIR ["league", "EPL", "2016-2017"])
        (tag_and_save ⟨[], []⟩ ["league", "EPL", "2016-2017"]
          (get_data_extract (fun _ => none) (fun _ => JsonVal.null) ["<p>hello</p>"])).1.files =
        some "\x7b\x7d") :=
  ⟨fun _ _ => rfl,
    get_data_no_match (fun _ => none) (fun _ => JsonVal.null) ["<p>hello</p>"]
      ⟨[], []⟩ ["league", "EPL", "2016-2017"] (fun _ _ => rfl)⟩

/-- C9: `tag_and_save`, for a non-empty Identity Key of non-empty
segments, stores the payload under the `os.path.join` of the storage root
and the key segments, leaves the parent directory present (creating the
missing directory structure first when absent), leaves the stored file
content equal to the payload, and returns the `(key, payload)` pair
unchanged. -/
theorem tag_and_save_correct (fs : FS) (key : List String) (data : String)
    (hne : key ≠ []) (hseg : ∀ s ∈ key, s ≠ "") :
    List.lookup (osPathJoin ROOTDIR key) (tag_and_save fs key data).1.files =
        some data ∧
      pyDirname (osPathJoin ROOTDIR key) ∈ (tag_and_save fs key data).1.dirs ∧
      (tag_and_save fs key data).2 = (key, data) :=
  ⟨tag_and_save_lookup fs key data, tag_and_save_dirs fs key data, rfl⟩

/-- Witness for `tag_and_save_correct` on an empty filesystem and the key
`('league', 'EPL', '2016-2017')`. -/
theorem tag_and_save_correct_witness :
    (["league", "EPL", "2016-2017"] : List String) ≠ [] ∧
      (∀ s ∈ (["league", "EPL", "2016-2017"] : List String), s ≠ "") ∧
      (List.lookup (osPathJoin ROOTDIR ["league", "EPL", "2016-2017"])
          (tag_and_save ⟨[], []⟩ ["league", "EPL", "2016-2017"] "payload").1.files =
          some "payload" ∧
        pyDirname (osPathJoin ROOTDIR ["league", "EPL", "2016-2017"]) ∈
          (tag_and_save ⟨[], []⟩ ["league", "EPL", "2016-2017"] "payload").1.dirs ∧
        (tag_and_save ⟨[], []⟩ ["league", "EPL", "2016-2017"] "payload").2 =
          (["league", "EPL", "2016-2017"], "payload")) :=
  ⟨by decide, by decide,
    tag_and_save_correct ⟨[], []⟩ ["league", "EPL", "2016-2017"] "payload"
      (by decide) (by decide)⟩

/-- C10: across any page, the dict built by `get_data` maps each matched
variable name to the parsed value captured in the last matching script
block in document order (later matches overwrite earlier ones), and its
key set is exactly the set of distinct matched names; in particular this
settles pages where two or more script blocks match with the same name. -/
theorem extract_scripts_last_wins (search : String → Option (String × String))
    (parse : String → JsonVal) (scripts : List String) (name : String) :
    List.lookup name (extract_scripts search parse scripts) =
      (((scripts.filterMap search).filter (fun p => p.1 == name)).getLast?).map
        (fun p => parse p.2) ∧
      (name ∈ (extract_scripts search parse scripts).map Prod.fst ↔
        name ∈ (scripts.filterMap search).map Prod.fst) := by
  constructor
  · rw [extract_scripts, extract_scripts_eq_matches, lookup_matches_fold]
    cases hl : ((scripts.filterMap search).filter (fun p => p.1 == name)).getLast?
    · rfl
    · rfl
  · rw [extract_scripts, extract_scripts_eq_matches, keys_matches_fold]
    simp
